import Mathlib

/-
  Verification development for the retina packet-inspection core.

  The Rust sources under src/core/src are shallowly embedded below:
  frames are lists of byte values (Nat), machine integers are Nat with
  explicit truncation where the code truncates, fallible code returns
  Option or Except, and the stateful pieces (flow table, per-core regex
  cells, hand-off channel, packet store) are explicit state passing.

  Where a definition embeds code that is not part of src/ (the ipv4,
  ipv6, tcp and udp packet modules, Mbuf.get_data and
  Ethernet.get_last_vlan_id are only referenced there), the definition
  carries a doc comment starting with "Modelled from the spec:".
-/

namespace Retina

/-- IP address, mirroring std::net::IpAddr: a V4 variant (the u32 value
of the four octets) or a V6 variant (the u128 value). The derived Rust
ordering puts every V4 address before every V6 address and compares
numerically within a variant. -/
inductive IpAddr where
  | v4 (a : Nat)
  | v6 (a : Nat)
deriving DecidableEq, Repr

/-- Socket address, mirroring std::net::SocketAddr: an IP address plus a
port. The std ordering compares the address first, then the port. -/
structure SocketAddr where
  ip : IpAddr
  port : Nat
deriving DecidableEq, Repr

/-- Strict less-than of std::net::IpAddr (derived Ord on the enum):
V4 before V6, numeric inside a variant. -/
def IpAddr.ltb : IpAddr → IpAddr → Bool
  | .v4 a, .v4 b => decide (a < b)
  | .v4 _, .v6 _ => true
  | .v6 _, .v4 _ => false
  | .v6 a, .v6 b => decide (a < b)

/-- Strict less-than of std::net::SocketAddr: lexicographic on
(ip, port). -/
def SocketAddr.ltb (x y : SocketAddr) : Bool :=
  IpAddr.ltb x.ip y.ip || (decide (x.ip = y.ip) && decide (x.port < y.port))

/-- Rust cmp::max on SocketAddr: returns the greater value, the second
argument when the two are equal (max(v1, v2) = if v2 < v1 then v1 else v2). -/
def smax (a b : SocketAddr) : SocketAddr :=
  if SocketAddr.ltb b a then a else b

/-- Rust cmp::min on SocketAddr: returns the smaller value, the first
argument when the two are equal (min(v1, v2) = if v2 < v1 then v2 else v1). -/
def smin (a b : SocketAddr) : SocketAddr :=
  if SocketAddr.ltb b a then b else a

/-- Canonical flow key from protocols/layer4.rs:
Flow(Option of vlan id, SocketAddr, SocketAddr, protocol). -/
structure Flow where
  vlanId : Option Nat
  addr1 : SocketAddr
  addr2 : SocketAddr
  proto : Nat
deriving DecidableEq, Repr

/-- Parsed transport-layer context from protocols/layer4.rs. -/
structure L4Context where
  src : SocketAddr
  dst : SocketAddr
  proto : Nat
  offset : Nat
  length : Nat
  vlanId : Option Nat
deriving DecidableEq, Repr

/-- Parse errors raised by L4Context::new (the four bail! messages). -/
inductive ParseError where
  | notEthernet
  | notIp
  | notTcpOrUdp
  | malformed
deriving DecidableEq, Repr

/-- TCP protocol number (TCP_PROTOCOL in the tcp packet module). -/
def TCP_PROTOCOL : Nat := 6

/-- UDP protocol number (UDP_PROTOCOL in the udp packet module). -/
def UDP_PROTOCOL : Nat := 17

/-- Modelled from the spec: Mbuf::get_data is not under src/; the spec
says all header reads are bounds-checked against the frame length, so a
read of size sz at offset off succeeds exactly when off + sz fits in the
frame, returning those bytes. -/
def getData (frame : List Nat) (off sz : Nat) : Option (List Nat) :=
  if off + sz ≤ frame.length then some ((frame.drop off).take sz) else none

/-- Big-endian 16-bit field from two bytes (the u16be wire type). -/
def u16be (hi lo : Nat) : Nat := hi * 256 + lo

/-- Big-endian 32-bit IPv4 address taken from four consecutive bytes of
a header starting at index i. -/
def ipv4At (b : List Nat) (i : Nat) : Nat :=
  ((b.getD i 0 * 256 + b.getD (i + 1) 0) * 256 + b.getD (i + 2) 0) * 256
    + b.getD (i + 3) 0

/-- Big-endian integer value of a byte list (used for the 16-byte IPv6
addresses). -/
def bytesToNat (bs : List Nat) : Nat :=
  bs.foldl (fun acc b => acc * 256 + b) 0

/-- EtherType value of 802.1Q VLAN tags (VLAN_802_1Q in ethernet.rs). -/
def VLAN_802_1Q : Nat := 0x8100

/-- The VLAN-tag loop of Ethernet::parse_from: starting at a given
offset, read 4-byte (tci, ether_type) tags while the tag ether_type is
0x8100, collecting every tag read (the final tag read carries the inner
EtherType). Each read goes through the bounds check of get_data; a
failing read aborts the whole parse. The fuel argument only bounds the
recursion; the Rust loop terminates because the offset grows past the
frame length. -/
def parseVlansAux (frame : List Nat) : Nat → Nat → Option (List (Nat × Nat))
  | 0, _ => none
  | fuel + 1, off =>
    if off + 4 ≤ frame.length then
      let b := (frame.drop off).take 4
      let tci := u16be (b.getD 0 0) (b.getD 1 0)
      let et := u16be (b.getD 2 0) (b.getD 3 0)
      if et = VLAN_802_1Q then
        match parseVlansAux frame fuel (off + 4) with
        | some rest => some ((tci, et) :: rest)
        | none => none
      else
        some [(tci, et)]
    else none

/-- The Ethernet view produced by Ethernet::parse_from: the fixed
14-byte header (dst mac, src mac, ether_type) plus the list of VLAN
headers read by the tag loop. -/
structure EthernetS where
  dst : List Nat
  src : List Nat
  etherType : Nat
  vlans : List (Nat × Nat)
deriving DecidableEq, Repr

/-- Ethernet::parse_from from ethernet.rs: read the 14-byte header at
offset 0; when its EtherType is 0x8100 run the VLAN-tag loop starting at
offset 14, otherwise no VLAN headers. -/
def ethParse (frame : List Nat) : Option EthernetS :=
  match getData frame 0 14 with
  | none => none
  | some b =>
    let et := u16be (b.getD 12 0) (b.getD 13 0)
    if et = VLAN_802_1Q then
      match parseVlansAux frame (frame.length + 1) 14 with
      | some vlans => some ⟨b.take 6, (b.drop 6).take 6, et, vlans⟩
      | none => none
    else
      some ⟨b.take 6, (b.drop 6).take 6, et, []⟩

/-- Ethernet::header_len: the 14 fixed bytes plus 4 bytes per VLAN
header read. -/
def EthernetS.headerLen (e : EthernetS) : Nat := 14 + 4 * e.vlans.length

/-- Ethernet::next_header: the outer EtherType for untagged frames, the
last VLAN header EtherType otherwise. -/
def EthernetS.nextHeader (e : EthernetS) : Nat :=
  match e.vlans.getLast? with
  | none => e.etherType
  | some v => v.2

/-- Ethernet::next_header_offset: offset 0 plus header_len. -/
def EthernetS.nextHeaderOffset (e : EthernetS) : Nat := e.headerLen

/-- Modelled from the spec: Ethernet::get_last_vlan_id is not under
src/; the spec says the innermost VLAN id is retained, so it is the
12-bit VLAN id of the last tag read, none for untagged frames. -/
def EthernetS.lastVlanId (e : EthernetS) : Option Nat :=
  e.vlans.getLast?.map (fun v => v.1 % 4096)

/-- Parsed IPv4 header summary. -/
structure Ipv4S where
  offset : Nat
  ihl : Nat
  totalLength : Nat
  protocol : Nat
  srcAddr : Nat
  dstAddr : Nat
deriving DecidableEq, Repr

/-- Modelled from the spec: the ipv4 packet module is not under src/;
the parser dispatches on the inner EtherType (0x0800 for IPv4) and reads
the 20-byte fixed header at the Ethernet next-header offset,
bounds-checked against the frame length. Field layout is the standard
one: IHL is the low nibble of byte 0, total length is bytes 2..3 (big
endian), protocol is byte 9, source and destination addresses are bytes
12..15 and 16..19. -/
def ipv4Parse (frame : List Nat) (eth : EthernetS) : Option Ipv4S :=
  if eth.nextHeader = 0x0800 then
    match getData frame eth.nextHeaderOffset 20 with
    | some b =>
      some ⟨eth.nextHeaderOffset, b.getD 0 0 % 16,
        u16be (b.getD 2 0) (b.getD 3 0), b.getD 9 0, ipv4At b 12, ipv4At b 16⟩
    | none => none
  else none

/-- Ipv4::header_len: IHL times 4 bytes. -/
def Ipv4S.headerLen (ip : Ipv4S) : Nat := 4 * ip.ihl

/-- Ipv4::next_header_offset. -/
def Ipv4S.nextHeaderOffset (ip : Ipv4S) : Nat := ip.offset + ip.headerLen

/-- Parsed IPv6 header summary. -/
structure Ipv6S where
  offset : Nat
  payloadLength : Nat
  protocol : Nat
  srcAddr : Nat
  dstAddr : Nat
deriving DecidableEq, Repr

/-- Modelled from the spec: the ipv6 packet module is not under src/;
the parser dispatches on the inner EtherType (0x86DD for IPv6) and reads
the 40-byte fixed header at the Ethernet next-header offset,
bounds-checked. Payload length is bytes 4..5 (big endian), next header
(the transport protocol) is byte 6, source and destination addresses are
bytes 8..23 and 24..39. -/
def ipv6Parse (frame : List Nat) (eth : EthernetS) : Option Ipv6S :=
  if eth.nextHeader = 0x86DD then
    match getData frame eth.nextHeaderOffset 40 with
    | some b =>
      some ⟨eth.nextHeaderOffset, u16be (b.getD 4 0) (b.getD 5 0), b.getD 6 0,
        bytesToNat ((b.drop 8).take 16), bytesToNat ((b.drop 24).take 16)⟩
    | none => none
  else none

/-- Ipv6::header_len: the fixed 40 bytes. -/
def Ipv6S.headerLen (_ip : Ipv6S) : Nat := 40

/-- Ipv6::next_header_offset. -/
def Ipv6S.nextHeaderOffset (ip : Ipv6S) : Nat := ip.offset + ip.headerLen

/-- Parsed TCP header summary. -/
structure TcpS where
  offset : Nat
  srcPort : Nat
  dstPort : Nat
  dataOffset : Nat
deriving DecidableEq, Repr

/-- Modelled from the spec: the tcp packet module is not under src/; the
parser dispatches on the IP protocol (6 for TCP) and reads the 20-byte
fixed header at the IP next-header offset, bounds-checked. Ports are
bytes 0..1 and 2..3 (big endian); the data offset is the high nibble of
byte 12. -/
def tcpParse (frame : List Nat) (outerProto off : Nat) : Option TcpS :=
  if outerProto = TCP_PROTOCOL then
    match getData frame off 20 with
    | some b =>
      some ⟨off, u16be (b.getD 0 0) (b.getD 1 0),
        u16be (b.getD 2 0) (b.getD 3 0), b.getD 12 0 / 16⟩
    | none => none
  else none

/-- Tcp::header_len: data offset times 4 bytes. -/
def TcpS.headerLen (t : TcpS) : Nat := 4 * t.dataOffset

/-- Tcp::next_header_offset. -/
def TcpS.nextHeaderOffset (t : TcpS) : Nat := t.offset + t.headerLen

/-- Parsed UDP header summary. -/
structure UdpS where
  offset : Nat
  srcPort : Nat
  dstPort : Nat
deriving DecidableEq, Repr

/-- Modelled from the spec: the udp packet module is not under src/; the
parser dispatches on the IP protocol (17 for UDP) and reads the 8-byte
header at the IP next-header offset, bounds-checked. Ports are bytes
0..1 and 2..3 (big endian). -/
def udpParse (frame : List Nat) (outerProto off : Nat) : Option UdpS :=
  if outerProto = UDP_PROTOCOL then
    match getData frame off 8 with
    | some b =>
      some ⟨off, u16be (b.getD 0 0) (b.getD 1 0), u16be (b.getD 2 0) (b.getD 3 0)⟩
    | none => none
  else none

/-- Udp::header_len: the fixed 8 bytes. -/
def UdpS.headerLen (_u : UdpS) : Nat := 8

/-- Udp::next_header_offset. -/
def UdpS.nextHeaderOffset (u : UdpS) : Nat := u.offset + u.headerLen

/-- L4Context::new from protocols/layer4.rs: try Ethernet, then IPv4
with TCP or UDP, then IPv6 with TCP or UDP. The payload length is the IP
total (or payload) length minus the L3 plus L4 header lengths, computed
with checked_sub; underflow bails with the Malformed error. The error
cases mirror the four bail! sites. -/
def L4Context.new (frame : List Nat) : Except ParseError L4Context :=
  match ethParse frame with
  | none => .error .notEthernet
  | some eth =>
    match ipv4Parse frame eth with
    | some ip4 =>
      match tcpParse frame ip4.protocol ip4.nextHeaderOffset with
      | some tcp =>
        if ip4.headerLen + tcp.headerLen ≤ ip4.totalLength then
          .ok ⟨⟨.v4 ip4.srcAddr, tcp.srcPort⟩, ⟨.v4 ip4.dstAddr, tcp.dstPort⟩,
            TCP_PROTOCOL, tcp.nextHeaderOffset,
            ip4.totalLength - (ip4.headerLen + tcp.headerLen), eth.lastVlanId⟩
        else .error .malformed
      | none =>
        match udpParse frame ip4.protocol ip4.nextHeaderOffset with
        | some udp =>
          if ip4.headerLen + udp.headerLen ≤ ip4.totalLength then
            .ok ⟨⟨.v4 ip4.srcAddr, udp.srcPort⟩, ⟨.v4 ip4.dstAddr, udp.dstPort⟩,
              UDP_PROTOCOL, udp.nextHeaderOffset,
              ip4.totalLength - (ip4.headerLen + udp.headerLen), eth.lastVlanId⟩
          else .error .malformed
        | none => .error .notTcpOrUdp
    | none =>
      match ipv6Parse frame eth with
      | some ip6 =>
        match tcpParse frame ip6.protocol ip6.nextHeaderOffset with
        | some tcp =>
          if tcp.headerLen ≤ ip6.payloadLength then
            .ok ⟨⟨.v6 ip6.srcAddr, tcp.srcPort⟩, ⟨.v6 ip6.dstAddr, tcp.dstPort⟩,
              TCP_PROTOCOL, tcp.nextHeaderOffset,
              ip6.payloadLength - tcp.headerLen, eth.lastVlanId⟩
          else .error .malformed
        | none =>
          match udpParse frame ip6.protocol ip6.nextHeaderOffset with
          | some udp =>
            if udp.headerLen ≤ ip6.payloadLength then
              .ok ⟨⟨.v6 ip6.srcAddr, udp.srcPort⟩, ⟨.v6 ip6.dstAddr, udp.dstPort⟩,
                UDP_PROTOCOL, udp.nextHeaderOffset,
                ip6.payloadLength - udp.headerLen, eth.lastVlanId⟩
            else .error .malformed
          | none => .error .notTcpOrUdp
      | none => .error .notIp

/-- L4Context::get_flow: canonicalize the endpoints with cmp::max and
cmp::min, keep the VLAN id and protocol. -/
def L4Context.get_flow (c : L4Context) : Flow :=
  ⟨c.vlanId, smax c.src c.dst, smin c.src c.dst, c.proto⟩

/-
  Flow table (filter/mod.rs). The DashMap from Flow to Instant is
  embedded as an association list from Flow to a Nat timestamp, and the
  monotonic clock is passed explicitly: every operation receives the
  value Instant::now() would return at its call site. Instant::elapsed
  at time now for a stored stamp ts is the saturating difference
  now - ts, which is Nat subtraction.
-/

/-- The flow table state: the DashMap entries. -/
abbrev FlowTable := List (Flow × Nat)

/-- FilterCtx::check_if_existing_flow: when the flow is present update
its stored timestamp to now and return true, otherwise return false.
Returns the answer together with the updated table. -/
def check_if_existing_flow (t : FlowTable) (f : Flow) (now : Nat) :
    Bool × FlowTable :=
  if t.any (fun e => decide (e.1 = f)) then
    (true, t.map (fun e => if e.1 = f then (e.1, now) else e))
  else
    (false, t)

/-- FilterCtx::add_flow: insert the flow with the current timestamp,
overwriting any existing entry (DashMap::insert replaces). -/
def add_flow (t : FlowTable) (f : Flow) (now : Nat) : FlowTable :=
  (f, now) :: t.filter (fun e => decide ¬(e.1 = f))

/-- FilterCtx::prune_flows: retain every entry whose elapsed time is
strictly below the timeout. -/
def prune_flows (t : FlowTable) (now timeout : Nat) : FlowTable :=
  t.filter (fun e => decide (now - e.2 < timeout))

/-- Observation: the timestamp stored for a flow, if any. -/
def lookupFlow (t : FlowTable) (f : Flow) : Option Nat :=
  (t.find? (fun e => decide (e.1 = f))).map (fun e => e.2)

/-
  Regex rule sets (rules/mod.rs and filter/mod.rs). A compiled RegexSet
  is embedded by its set-match semantics: the list of compiled matchers,
  each a predicate on payload byte lists; RegexSet::is_match is the
  disjunction. Compilation of pattern strings happens in the external
  regex crate, so the definitions that need it take the compile function
  as a parameter.
-/

/-- A compiled regex set: the matchers of its patterns. Set-match
reports whether any pattern matches. -/
structure RegexSet where
  matchers : List (List Nat → Bool)

instance : Inhabited RegexSet := ⟨⟨[]⟩⟩

/-- RegexSet::empty: the set with no patterns. -/
def RegexSet.empty : RegexSet := ⟨[]⟩

/-- RegexSet::is_match: true when at least one pattern matches the
payload. With no patterns this is false for every payload. -/
def RegexSet.is_match (rs : RegexSet) (payload : List Nat) : Bool :=
  rs.matchers.any (fun m => m payload)

/-- Rules::update_rules from rules/mod.rs: walk the vector of per-core
cells and store a clone of the newly compiled set into each, one write
lock at a time. A clone of a RegexSet is an equal value. -/
def update_rules (cells : List RegexSet) (r : RegexSet) : List RegexSet :=
  match cells with
  | [] => []
  | _ :: rest => r :: update_rules rest r

/-- One item of the serde_json stream iterator in
Rules::handle_connection: either a deserialization error or a decoded
rule document holding the pattern strings. -/
inductive DocResult where
  | invalidJson
  | doc (rules : List String)

/-- Rules::handle_connection from rules/mod.rs: iterate the serde_json
stream of document results from one connection. A document whose
patterns fail to compile is logged and skipped and iteration continues;
a document that compiles is installed with update_rules. A
deserialization error is logged, and the reader-backed stream
deserializer then fuses: every later call of the iterator yields None,
so the for loop ends and the rest of the connection data is never
processed. The compile parameter is the external RegexSet::new,
returning none exactly when some pattern is invalid. -/
def handle_connection (compile : List String → Option RegexSet)
    (cells : List RegexSet) (docs : List DocResult) : List RegexSet :=
  match docs with
  | [] => cells
  | .invalidJson :: _ => cells
  | .doc rs :: rest =>
    match compile rs with
    | none => handle_connection compile cells rest
    | some r => handle_connection compile (update_rules cells r) rest

/-
  Hand-off channel (filter/mod.rs). The std mpsc sender is embedded by
  the receiver-side queue plus a flag saying whether the receiver is
  still alive: Sender::send appends to the queue and fails exactly when
  the receiver has been dropped.
-/

/-- Sender::send on the hand-off channel: enqueue when the receiver is
alive, fail otherwise. -/
def channelSend (receiverAlive : Bool) (queue : List (Flow × List Nat))
    (msg : Flow × List Nat) : Except Unit (List (Flow × List Nat)) :=
  if receiverAlive then .ok (queue ++ [msg]) else .error ()

/-- Outcome of FilterCtx::send_packet: either the message was enqueued,
or the unwrap on the send result panicked. -/
inductive SendOutcome where
  | sent (queue : List (Flow × List Nat))
  | panicked
deriving DecidableEq

/-- FilterCtx::send_packet from filter/mod.rs: send the (flow, packet)
pair and unwrap the result, so a send error becomes a panic. -/
def send_packet (receiverAlive : Bool) (queue : List (Flow × List Nat))
    (flow : Flow) (packet : List Nat) : SendOutcome :=
  match channelSend receiverAlive queue (flow, packet) with
  | .ok q => .sent q
  | .error _ => .panicked

/-
  Packet store (packet_store/mod.rs). The file system is embedded as a
  map from Flow to the byte list appended to that flow file so far; the
  files are opened in append-create mode, so content is pure
  concatenation and the LRU cache of descriptors does not change what is
  written. A frame is embedded by its data bytes, so Mbuf::data_len is
  the list length. The three unwraps per message (open, length write,
  payload write) are driven by an oracle giving the failure, if any, at
  each message index.
-/

/-- The per-flow file contents. -/
abbrev FileSystem := Flow → List Nat

/-- u64::to_le_bytes: the eight little-endian base-256 digits of the
value (an usize length is truncated to 64 bits by the cast). -/
def le64 (n : Nat) : List Nat :=
  [n % 256, n / 256 % 256, n / 65536 % 256, n / 16777216 % 256,
   n / 4294967296 % 256, n / 1099511627776 % 256,
   n / 281474976710656 % 256, n / 72057594037927936 % 256]

/-- Little-endian value of a byte list (the decoder side of the length
prefix). -/
def fromLE (bs : List Nat) : Nat :=
  bs.foldr (fun b acc => b + 256 * acc) 0

/-- Append one record for a flow: the 8-byte little-endian length of the
packet data, then the data bytes, appended to that flow file. -/
def writeRecord (fs : FileSystem) (f : Flow) (p : List Nat) : FileSystem :=
  fun g => if g = f then fs g ++ (le64 p.length ++ p) else fs g

/-- The unwrap that fails while handling one message: the open on a
cache miss, the write of the length prefix, or the write of the payload
bytes. -/
inductive IoFail where
  | openFail
  | lenWriteFail
  | dataWriteFail

/-- Result of the saving loop: the channel closed and every message was
written, or an unwrap panicked, leaving the files written so far and the
messages not fully processed. -/
inductive StoreOutcome where
  | finished (fs : FileSystem)
  | panicked (fs : FileSystem) (remaining : List (Flow × List Nat))

/-- The receive loop of PacketStore::start_saving_loop, one step per
message: on a clean step append the record and continue; a failing open
or length write panics with nothing appended for this message; a failing
payload write panics with the length prefix already appended. -/
def savingLoop (fail : Nat → Option IoFail) :
    Nat → FileSystem → List (Flow × List Nat) → StoreOutcome
  | _, fs, [] => .finished fs
  | i, fs, (f, p) :: rest =>
    match fail i with
    | some .openFail => .panicked fs ((f, p) :: rest)
    | some .lenWriteFail => .panicked fs ((f, p) :: rest)
    | some .dataWriteFail =>
      .panicked (fun g => if g = f then fs g ++ le64 p.length else fs g)
        ((f, p) :: rest)
    | none => savingLoop fail (i + 1) (writeRecord fs f p) rest

/-- PacketStore::start_saving_loop: run the receive loop on the whole
message sequence, starting from empty files. -/
def start_saving_loop (fail : Nat → Option IoFail)
    (msgs : List (Flow × List Nat)) : StoreOutcome :=
  savingLoop fail 0 (fun _ => []) msgs

/-- The contents of one flow file in a store outcome. -/
def storeFile (o : StoreOutcome) (g : Flow) : List Nat :=
  match o with
  | .finished fs => fs g
  | .panicked fs _ => fs g

/-- The payloads the store received for one flow, in arrival order. -/
def payloadsFor (msgs : List (Flow × List Nat)) (g : Flow) : List (List Nat) :=
  (msgs.filter (fun m => decide (m.1 = g))).map (fun m => m.2)

/-- The record encoding of a payload sequence: for each payload its
8-byte little-endian length then its bytes, concatenated. -/
def encodeRecords (ps : List (List Nat)) : List Nat :=
  (ps.map (fun p => le64 p.length ++ p)).flatten

/-- The decode procedure of the file format: repeatedly read an 8-byte
little-endian length and then exactly that many bytes. The fuel only
bounds the recursion; each step consumes at least 8 bytes. -/
def decodeAux : Nat → List Nat → List (List Nat)
  | 0, _ => []
  | fuel + 1, bs =>
    if 8 ≤ bs.length then
      let n := fromLE (bs.take 8)
      ((bs.drop 8).take n) :: decodeAux fuel ((bs.drop 8).drop n)
    else []

/-- Decode a whole file into its record payloads. -/
def decodeRecords (bs : List Nat) : List (List Nat) :=
  decodeAux bs.length bs

/-
  Per-core replication (filter/mod.rs Clone and FilterCtx::new, used by
  runtime and rules). Arc sharing is embedded by a world holding the
  allocated flow tables and regex cells; a FilterCtx holds indices into
  the world. The custom Clone keeps the flow-table and sender indices
  and the timeout value, but allocates a fresh regex cell initialized
  with a clone of the current regex set.
-/

/-- The allocated shared state: flow tables and per-core regex cells. -/
structure World where
  tables : List FlowTable
  cells : List RegexSet

/-- The per-core filter context: references into the world plus the
plain timeout value. -/
structure FilterCtx where
  flowsRef : Nat
  timeout : Nat
  regexRef : Nat
  sender : Nat

/-- The regex set a context currently reads (regexes.read()). -/
def World.readRegex (w : World) (c : FilterCtx) : RegexSet :=
  w.cells.getD c.regexRef default

/-- Replacing the matcher held by a context's cell (the write the rule
daemon performs through the shared Arc). -/
def World.writeRegex (w : World) (c : FilterCtx) (r : RegexSet) : World :=
  ⟨w.tables, w.cells.set c.regexRef r⟩

/-- The flow table a context references. -/
def World.flowTable (w : World) (c : FilterCtx) : FlowTable :=
  w.tables.getD c.flowsRef []

/-- FilterCtx::add_flow performed through a context reference. -/
def World.addFlow (w : World) (c : FilterCtx) (f : Flow) (now : Nat) : World :=
  ⟨w.tables.set c.flowsRef (add_flow (w.flowTable c) f now), w.cells⟩

/-- FilterCtx::check_if_existing_flow performed through a context
reference (the membership answer). -/
def World.checkFlow (w : World) (c : FilterCtx) (f : Flow) (now : Nat) : Bool :=
  (check_if_existing_flow (w.flowTable c) f now).1

/-- FilterCtx::check_match performed through a context reference. -/
def World.check_match (w : World) (c : FilterCtx) (payload : List Nat) : Bool :=
  (w.readRegex c).is_match payload

/-- FilterCtx::new: a fresh flow table with the given capacity reserve,
the timeout value, a fresh cell holding RegexSet::empty, and the given
sender handle. Returns the grown world and the new context. -/
def FilterCtx.newCtx (w : World) (timeout sender : Nat) : World × FilterCtx :=
  (⟨w.tables ++ [[]], w.cells ++ [RegexSet.empty]⟩,
   ⟨w.tables.length, timeout, w.cells.length, sender⟩)

/-- The custom Clone for FilterCtx: alias the flow table (Arc clone),
copy the timeout, allocate a fresh cell holding a clone of the current
regex set, alias the sender (Sender clone). Returns the grown world and
the clone. -/
def FilterCtx.cloneCtx (w : World) (c : FilterCtx) : World × FilterCtx :=
  (⟨w.tables, w.cells ++ [w.readRegex c]⟩,
   ⟨c.flowsRef, c.timeout, w.cells.length, c.sender⟩)

/-
  Helper lemmas.
-/

theorem ipLtbAsymm {a b : IpAddr} (h : IpAddr.ltb a b = true) :
    IpAddr.ltb b a = false := by
  cases a <;> cases b <;> simp [IpAddr.ltb] at h ⊢ <;> omega

theorem ipEqOfNotLtb {a b : IpAddr} (h1 : IpAddr.ltb a b = false)
    (h2 : IpAddr.ltb b a = false) : a = b := by
  cases a <;> cases b <;> simp [IpAddr.ltb] at h1 h2 ⊢ <;> omega

theorem IpAddr.ltb_irrefl (a : IpAddr) : IpAddr.ltb a a = false := by
  cases a <;> simp [IpAddr.ltb]

theorem sockLtbAsymm {a b : SocketAddr} (h : SocketAddr.ltb a b = true) :
    SocketAddr.ltb b a = false := by
  obtain ⟨ia, pa⟩ := a
  obtain ⟨ib, pb⟩ := b
  simp only [SocketAddr.ltb, Bool.or_eq_true, Bool.and_eq_true,
    decide_eq_true_eq] at h
  rcases h with h | ⟨he, hp⟩
  · have h2 := ipLtbAsymm h
    have hne : ib ≠ ia := by
      intro he
      subst he
      rw [IpAddr.ltb_irrefl] at h
      exact Bool.false_ne_true h
    simp [SocketAddr.ltb, h2, hne]
  · subst he
    simp [SocketAddr.ltb, IpAddr.ltb_irrefl]
    omega

theorem sockEqOfNotLtb {a b : SocketAddr}
    (h1 : SocketAddr.ltb a b = false) (h2 : SocketAddr.ltb b a = false) :
    a = b := by
  obtain ⟨ia, pa⟩ := a
  obtain ⟨ib, pb⟩ := b
  simp only [SocketAddr.ltb, Bool.or_eq_false_iff, Bool.and_eq_false_iff,
    decide_eq_false_iff_not] at h1 h2
  have he : ia = ib := ipEqOfNotLtb h1.1 h2.1
  subst he
  rcases h1.2 with h | h
  · exact absurd rfl h
  · rcases h2.2 with h2p | h2p
    · exact absurd rfl h2p
    · have : pa = pb := by omega
      rw [this]

theorem smax_comm (a b : SocketAddr) : smax a b = smax b a := by
  unfold smax
  cases h1 : SocketAddr.ltb b a
  · cases h2 : SocketAddr.ltb a b
    · have he := sockEqOfNotLtb h2 h1
      simp [h1, h2, he]
    · simp [h1, h2]
  · simp [h1, sockLtbAsymm h1]

theorem smin_comm (a b : SocketAddr) : smin a b = smin b a := by
  unfold smin
  cases h1 : SocketAddr.ltb b a
  · cases h2 : SocketAddr.ltb a b
    · have he := sockEqOfNotLtb h2 h1
      simp [h1, h2, he]
    · simp [h1, h2]
  · simp [h1, sockLtbAsymm h1]

theorem smax_not_ltb_smin (a b : SocketAddr) :
    SocketAddr.ltb (smax a b) (smin a b) = false := by
  unfold smax smin
  cases h : SocketAddr.ltb b a
  · simp only [h, Bool.false_eq_true, if_false]
  · simp only [h, if_true]
    exact sockLtbAsymm h

theorem listGetD_append_left {α : Type} (d : α) :
    ∀ (l m : List α) (i : Nat), i < l.length → (l ++ m).getD i d = l.getD i d := by
  intro l
  induction l with
  | nil => intro m i h; simp at h
  | cons a t ih =>
    intro m i h
    cases i with
    | zero => rfl
    | succ j =>
      simp only [List.cons_append, List.getD_cons_succ]
      exact ih m j (by simpa using h)

theorem listGetD_concat {α : Type} (d a : α) :
    ∀ (l : List α), (l ++ [a]).getD l.length d = a := by
  intro l
  induction l with
  | nil => rfl
  | cons x t ih =>
    simp only [List.cons_append, List.length_cons, List.getD_cons_succ]
    exact ih

theorem listGetD_set_self {α : Type} (d x : α) :
    ∀ (l : List α) (i : Nat), i < l.length → (l.set i x).getD i d = x := by
  intro l
  induction l with
  | nil => intro i h; simp at h
  | cons a t ih =>
    intro i h
    cases i with
    | zero => rfl
    | succ j =>
      simp only [List.set_cons_succ, List.getD_cons_succ]
      exact ih j (by simpa using h)

theorem listGetD_set_ne {α : Type} (d x : α) :
    ∀ (l : List α) (i j : Nat), i ≠ j → (l.set j x).getD i d = l.getD i d := by
  intro l
  induction l with
  | nil => intro i j _; simp
  | cons a t ih =>
    intro i j hne
    cases j with
    | zero =>
      cases i with
      | zero => exact absurd rfl hne
      | succ k => rfl
    | succ j0 =>
      cases i with
      | zero => rfl
      | succ k =>
        simp only [List.set_cons_succ, List.getD_cons_succ]
        exact ih k j0 (by omega)

/-
  Claim theorems.
-/

/-- Claim C4: flow canonicalization is direction-insensitive. Two
L4Contexts agreeing on VLAN id and protocol whose source and destination
socket addresses are swapped produce equal Flow keys, and get_flow
always places the larger endpoint first: the first endpoint of the key
is never smaller than the second. -/
theorem C4_flow_canonicalization :
    (∀ (v : Option Nat) (pr : Nat) (s d : SocketAddr) (o₁ l₁ o₂ l₂ : Nat),
      L4Context.get_flow ⟨s, d, pr, o₁, l₁, v⟩
        = L4Context.get_flow ⟨d, s, pr, o₂, l₂, v⟩) ∧
    (∀ c : L4Context,
      SocketAddr.ltb (L4Context.get_flow c).addr1 (L4Context.get_flow c).addr2
        = false) := by
  constructor
  · intro v pr s d o₁ l₁ o₂ l₂
    simp [L4Context.get_flow, smax_comm s d, smin_comm s d]
  · intro c
    exact smax_not_ltb_smin c.src c.dst

/-- Claim C6: hot-swap completeness. After Rules::update_rules the whole
vector of per-core cells holds the newly compiled matcher: the result is
exactly the new set replicated over every cell, so every subsequent read
on any core observes it and no cell holds anything else. -/
theorem C6_hot_swap_completeness (cells : List RegexSet) (r : RegexSet) :
    update_rules cells r = List.replicate cells.length r := by
  induction cells with
  | nil => rfl
  | cons a t ih => simp [update_rules, List.replicate, ih]

/-- Claim C5, counterexample: a connection that sends an invalid JSON
document followed by a valid document whose single rule compiles and
matches everything. The stream deserializer fuses on the parse failure,
so the daemon stops reading: the whole stream leaves the cell holding
the empty set, which matches nothing, whereas processing the valid
document alone would have installed a matcher that matches the empty
payload. The claim that the daemon continues reading from the same
connection after a parse failure is false. -/
theorem C5_rule_document_rejection_counterexample :
    handle_connection (fun rs => some ⟨rs.map (fun _ => fun _ => true)⟩)
        [RegexSet.empty] [DocResult.invalidJson, DocResult.doc ["x"]]
      = [RegexSet.empty] ∧
    RegexSet.is_match
        ((handle_connection (fun rs => some ⟨rs.map (fun _ => fun _ => true)⟩)
          [RegexSet.empty]
          [DocResult.invalidJson, DocResult.doc ["x"]]).getD 0 default) []
      = false ∧
    RegexSet.is_match
        ((handle_connection (fun rs => some ⟨rs.map (fun _ => fun _ => true)⟩)
          [RegexSet.empty] [DocResult.doc ["x"]]).getD 0 default) []
      = true :=
  ⟨rfl, rfl, rfl⟩

/-- Claim C5, amended: when the patterns of a received document fail to
compile, the whole document is rejected, every per-core cell is left
unchanged, and the daemon continues reading from the same connection
(processing the bad document followed by the rest equals processing the
rest alone); when a document fails to parse as JSON, every cell is
likewise left unchanged, but the fused stream deserializer ends the
loop, so the daemon stops reading that connection and no later document
on it is processed. -/
theorem C5_rule_document_rejection (compile : List String → Option RegexSet)
    (cells : List RegexSet) (rs : List String) (rest : List DocResult)
    (hc : compile rs = none) :
    handle_connection compile cells (DocResult.doc rs :: rest)
      = handle_connection compile cells rest ∧
    handle_connection compile cells (DocResult.invalidJson :: rest)
      = cells := by
  constructor
  · simp [handle_connection, hc]
  · rfl

/-- Witness for claim C5 at a concrete document whose pattern list fails
to compile, with one remaining document on the connection. -/
theorem C5_rule_document_rejection_witness :
    handle_connection (fun _ => none) [RegexSet.empty]
        [DocResult.doc ["("], DocResult.doc []]
      = handle_connection (fun _ => none) [RegexSet.empty] [DocResult.doc []] ∧
    handle_connection (fun _ => none) [RegexSet.empty]
        [DocResult.invalidJson, DocResult.doc []]
      = [RegexSet.empty] :=
  C5_rule_document_rejection (fun _ => none) [RegexSet.empty]
    ["("] [DocResult.doc []] rfl

/-- Claim C7, counterexample: with the receiver gone the channel send
fails, and FilterCtx::send_packet panics on the unwrap instead of
dropping the frame and continuing; the claim that the failure is
non-fatal for the process is false. -/
theorem C7_channel_failure_counterexample :
    channelSend false [] (⟨none, ⟨.v4 0, 0⟩, ⟨.v4 0, 0⟩, 6⟩, [0]) = .error () ∧
    send_packet false [] ⟨none, ⟨.v4 0, 0⟩, ⟨.v4 0, 0⟩, 6⟩ [0]
      = SendOutcome.panicked :=
  ⟨rfl, rfl⟩

/-- Claim C7, amended: send_packet unwraps the send result, so on a send
failure it panics, aborting the calling thread, rather than dropping the
frame and counting the error; on success the message is appended to the
channel queue. -/
theorem C7_channel_failure_amended (receiverAlive : Bool)
    (queue : List (Flow × List Nat)) (f : Flow) (p : List Nat) :
    send_packet receiverAlive queue f p
      = if receiverAlive then .sent (queue ++ [(f, p)]) else .panicked := by
  cases receiverAlive <;> rfl

/-- Claim C10: a FilterCtx created by FilterCtx::new holds the empty
RegexSet in its fresh cell, and check_match returns false for every
payload, so no flow can be admitted by regex matching before a rule
update. -/
theorem C10_initial_ruleset_rejects (w : World) (timeout sender : Nat)
    (payload : List Nat) :
    World.readRegex (FilterCtx.newCtx w timeout sender).1
        (FilterCtx.newCtx w timeout sender).2 = RegexSet.empty ∧
    World.check_match (FilterCtx.newCtx w timeout sender).1
        (FilterCtx.newCtx w timeout sender).2 payload = false := by
  have hread : World.readRegex (FilterCtx.newCtx w timeout sender).1
      (FilterCtx.newCtx w timeout sender).2 = RegexSet.empty := by
    simp only [FilterCtx.newCtx, World.readRegex]
    exact listGetD_concat default RegexSet.empty w.cells
  refine ⟨hread, ?_⟩
  simp [World.check_match, hread, RegexSet.is_match, RegexSet.empty]

/-- Claim C1: flow-table timing contract. After add_flow stamps a flow
at time t0, check_if_existing_flow at any t1 with t1 - t0 < T answers
true and updates the stored timestamp to t1; prune_flows at t2 with
t2 - t0 > T, with no intervening refresh of the key, removes the
entry. -/
theorem C1_flow_table_timing (t : FlowTable) (f : Flow) (T t0 t1 t2 : Nat)
    (h1 : t1 - t0 < T) (h2 : T < t2 - t0) :
    (check_if_existing_flow (add_flow t f t0) f t1).1 = true ∧
    lookupFlow (check_if_existing_flow (add_flow t f t0) f t1).2 f = some t1 ∧
    lookupFlow (prune_flows (add_flow t f t0) t2 T) f = none := by
  refine ⟨?_, ?_, ?_⟩
  · simp [check_if_existing_flow, add_flow]
  · simp [check_if_existing_flow, add_flow, lookupFlow, List.find?]
  · have hdrop : ¬(t2 - t0 < T) := by omega
    simp only [prune_flows, add_flow, lookupFlow, List.filter_cons,
      decide_eq_true_eq]
    rw [if_neg hdrop]
    rw [List.find?_eq_none.mpr]
    · rfl
    · intro x hx
      have hx1 := List.of_mem_filter (List.mem_of_mem_filter hx)
      simp only [decide_eq_true_eq] at hx1 ⊢
      exact hx1

/-- Witness for claim C1 at a concrete flow, insertion time 0, check
time 1, prune time 10, timeout 5. -/
theorem C1_flow_table_timing_witness :
    (check_if_existing_flow
        (add_flow [] ⟨none, ⟨.v4 1, 1⟩, ⟨.v4 0, 0⟩, 6⟩ 0)
        ⟨none, ⟨.v4 1, 1⟩, ⟨.v4 0, 0⟩, 6⟩ 1).1 = true ∧
    lookupFlow (check_if_existing_flow
        (add_flow [] ⟨none, ⟨.v4 1, 1⟩, ⟨.v4 0, 0⟩, 6⟩ 0)
        ⟨none, ⟨.v4 1, 1⟩, ⟨.v4 0, 0⟩, 6⟩ 1).2
      ⟨none, ⟨.v4 1, 1⟩, ⟨.v4 0, 0⟩, 6⟩ = some 1 ∧
    lookupFlow (prune_flows
        (add_flow [] ⟨none, ⟨.v4 1, 1⟩, ⟨.v4 0, 0⟩, 6⟩ 0) 10 5)
      ⟨none, ⟨.v4 1, 1⟩, ⟨.v4 0, 0⟩, 6⟩ = none :=
  C1_flow_table_timing [] ⟨none, ⟨.v4 1, 1⟩, ⟨.v4 0, 0⟩, 6⟩ 5 0 1 10
    (by decide) (by decide)

/-- Claim C9: FilterCtx clone asymmetry. The clone aliases the flow
table and the channel sender and copies the timeout unchanged; the regex
set is deep-copied into a fresh cell holding an equal value, so that
replacing the matcher through either cell leaves the other copy's
matcher unchanged, while a flow inserted through either handle is
visible through the other. -/
theorem C9_clone_asymmetry (w : World) (c : FilterCtx)
    (hr : c.regexRef < w.cells.length) (hf : c.flowsRef < w.tables.length) :
    ((FilterCtx.cloneCtx w c).2.flowsRef = c.flowsRef ∧
     (FilterCtx.cloneCtx w c).2.timeout = c.timeout ∧
     (FilterCtx.cloneCtx w c).2.sender = c.sender) ∧
    (FilterCtx.cloneCtx w c).2.regexRef ≠ c.regexRef ∧
    World.readRegex (FilterCtx.cloneCtx w c).1 (FilterCtx.cloneCtx w c).2
      = World.readRegex w c ∧
    (∀ r : RegexSet,
      World.readRegex
          (World.writeRegex (FilterCtx.cloneCtx w c).1
            (FilterCtx.cloneCtx w c).2 r) c
        = World.readRegex w c ∧
      World.readRegex
          (World.writeRegex (FilterCtx.cloneCtx w c).1 c r)
          (FilterCtx.cloneCtx w c).2
        = World.readRegex w c) ∧
    (∀ (f : Flow) (now : Nat),
      World.checkFlow
          (World.addFlow (FilterCtx.cloneCtx w c).1
            (FilterCtx.cloneCtx w c).2 f now) c f now = true ∧
      World.checkFlow
          (World.addFlow (FilterCtx.cloneCtx w c).1 c f now)
          (FilterCtx.cloneCtx w c).2 f now = true) := by
  have hne : w.cells.length ≠ c.regexRef := by omega
  refine ⟨⟨rfl, rfl, rfl⟩, by simpa using hne, ?_, ?_, ?_⟩
  · simp only [FilterCtx.cloneCtx, World.readRegex]
    exact listGetD_concat default (World.readRegex w c) w.cells
  · intro r
    constructor
    · simp only [FilterCtx.cloneCtx, World.writeRegex, World.readRegex]
      rw [listGetD_set_ne default r (w.cells ++ [w.cells.getD c.regexRef default])
        c.regexRef w.cells.length (by omega)]
      exact listGetD_append_left default w.cells [w.cells.getD c.regexRef default]
        c.regexRef hr
    · simp only [FilterCtx.cloneCtx, World.writeRegex, World.readRegex]
      rw [listGetD_set_ne default r (w.cells ++ [w.cells.getD c.regexRef default])
        w.cells.length c.regexRef hne]
      exact listGetD_concat default (w.cells.getD c.regexRef default) w.cells
  · intro f now
    constructor
    · simp only [FilterCtx.cloneCtx, World.addFlow, World.checkFlow,
        World.flowTable]
      rw [listGetD_set_self [] (add_flow
        (w.tables.getD c.flowsRef []) f now) w.tables c.flowsRef hf]
      simp [check_if_existing_flow, add_flow]
    · simp only [FilterCtx.cloneCtx, World.addFlow, World.checkFlow,
        World.flowTable]
      rw [listGetD_set_self [] (add_flow
        (w.tables.getD c.flowsRef []) f now) w.tables c.flowsRef hf]
      simp [check_if_existing_flow, add_flow]

/-- Witness for claim C9 at a concrete world with one flow table and one
regex cell and a context referencing both. -/
theorem C9_clone_asymmetry_witness :
    ((FilterCtx.cloneCtx ⟨[[]], [RegexSet.empty]⟩ ⟨0, 7, 0, 3⟩).2.flowsRef = 0 ∧
     (FilterCtx.cloneCtx ⟨[[]], [RegexSet.empty]⟩ ⟨0, 7, 0, 3⟩).2.timeout = 7 ∧
     (FilterCtx.cloneCtx ⟨[[]], [RegexSet.empty]⟩ ⟨0, 7, 0, 3⟩).2.sender = 3) ∧
    (FilterCtx.cloneCtx ⟨[[]], [RegexSet.empty]⟩ ⟨0, 7, 0, 3⟩).2.regexRef ≠ 0 ∧
    World.readRegex (FilterCtx.cloneCtx ⟨[[]], [RegexSet.empty]⟩ ⟨0, 7, 0, 3⟩).1
        (FilterCtx.cloneCtx ⟨[[]], [RegexSet.empty]⟩ ⟨0, 7, 0, 3⟩).2
      = World.readRegex ⟨[[]], [RegexSet.empty]⟩ ⟨0, 7, 0, 3⟩ ∧
    (∀ r : RegexSet,
      World.readRegex
          (World.writeRegex (FilterCtx.cloneCtx ⟨[[]], [RegexSet.empty]⟩ ⟨0, 7, 0, 3⟩).1
            (FilterCtx.cloneCtx ⟨[[]], [RegexSet.empty]⟩ ⟨0, 7, 0, 3⟩).2 r) ⟨0, 7, 0, 3⟩
        = World.readRegex ⟨[[]], [RegexSet.empty]⟩ ⟨0, 7, 0, 3⟩ ∧
      World.readRegex
          (World.writeRegex (FilterCtx.cloneCtx ⟨[[]], [RegexSet.empty]⟩ ⟨0, 7, 0, 3⟩).1
            ⟨0, 7, 0, 3⟩ r)
          (FilterCtx.cloneCtx ⟨[[]], [RegexSet.empty]⟩ ⟨0, 7, 0, 3⟩).2
        = World.readRegex ⟨[[]], [RegexSet.empty]⟩ ⟨0, 7, 0, 3⟩) ∧
    (∀ (f : Flow) (now : Nat),
      World.checkFlow
          (World.addFlow (FilterCtx.cloneCtx ⟨[[]], [RegexSet.empty]⟩ ⟨0, 7, 0, 3⟩).1
            (FilterCtx.cloneCtx ⟨[[]], [RegexSet.empty]⟩ ⟨0, 7, 0, 3⟩).2 f now)
          ⟨0, 7, 0, 3⟩ f now = true ∧
      World.checkFlow
          (World.addFlow (FilterCtx.cloneCtx ⟨[[]], [RegexSet.empty]⟩ ⟨0, 7, 0, 3⟩).1
            ⟨0, 7, 0, 3⟩ f now)
          (FilterCtx.cloneCtx ⟨[[]], [RegexSet.empty]⟩ ⟨0, 7, 0, 3⟩).2 f now = true) :=
  C9_clone_asymmetry ⟨[[]], [RegexSet.empty]⟩ ⟨0, 7, 0, 3⟩
    (by decide) (by decide)

theorem le64_length (n : Nat) : (le64 n).length = 8 := rfl

theorem fromLE_le64 (n : Nat) (h : n < 2 ^ 64) : fromLE (le64 n) = n := by
  simp only [fromLE, le64, List.foldr]
  omega

theorem savingLoop_no_fail (msgs : List (Flow × List Nat)) :
    ∀ (i : Nat) (fs : FileSystem),
      savingLoop (fun _ => none) i fs msgs
        = .finished (fun g => fs g ++ encodeRecords (payloadsFor msgs g)) := by
  induction msgs with
  | nil =>
    intro i fs
    simp only [savingLoop]
    congr 1
    funext g
    simp [encodeRecords, payloadsFor]
  | cons m rest ih =>
    intro i fs
    obtain ⟨f, p⟩ := m
    simp only [savingLoop]
    rw [ih (i + 1) (writeRecord fs f p)]
    congr 1
    funext g
    by_cases hg : g = f
    · subst hg
      simp [writeRecord, payloadsFor, encodeRecords, List.append_assoc]
    · have hg2 : ¬(f = g) := fun h => hg h.symm
      simp [writeRecord, payloadsFor, hg, hg2]

theorem decode_encode (ps : List (List Nat)) :
    ∀ fuel, (∀ p ∈ ps, p.length < 2 ^ 64) →
      (encodeRecords ps).length ≤ fuel →
      decodeAux fuel (encodeRecords ps) = ps := by
  induction ps with
  | nil =>
    intro fuel _ _
    cases fuel <;> simp [decodeAux, encodeRecords]
  | cons p ps ih =>
    intro fuel hp hlen
    have hk : encodeRecords (p :: ps)
        = le64 p.length ++ (p ++ encodeRecords ps) := by
      simp [encodeRecords, List.append_assoc]
    rw [hk] at hlen ⊢
    have h8 : 8 ≤ (le64 p.length ++ (p ++ encodeRecords ps)).length := by
      simp [le64_length]
    obtain ⟨f, rfl⟩ : ∃ f, fuel = f + 1 := by
      cases fuel with
      | zero =>
        exfalso
        simp only [List.length_append, le64_length, Nat.le_zero] at hlen
        omega
      | succ f => exact ⟨f, rfl⟩
    simp only [decodeAux, if_pos h8]
    have ht : (le64 p.length ++ (p ++ encodeRecords ps)).take 8
        = le64 p.length := by
      rw [show (8 : Nat) = (le64 p.length).length from rfl, List.take_left]
    have hd : (le64 p.length ++ (p ++ encodeRecords ps)).drop 8
        = p ++ encodeRecords ps := by
      rw [show (8 : Nat) = (le64 p.length).length from rfl, List.drop_left]
    rw [ht, hd, fromLE_le64 p.length (hp p (by simp))]
    rw [List.take_left, List.drop_left]
    rw [ih f (fun q hq => hp q (by simp [hq]))
      (by simp only [List.length_append, le64_length] at hlen; omega)]

/-- Claim C3: persistence round-trip. With no I/O failure, the file the
saving loop produces for a flow is exactly the concatenation of one
record per accepted payload in arrival order, each record an 8-byte
little-endian length prefix equal to the length of the payload bytes
that follow it; decoding the file by repeatedly reading a length and
that many bytes returns exactly the original payload sequence. -/
theorem C3_persistence_roundtrip (msgs : List (Flow × List Nat)) (flow : Flow)
    (h : ∀ m ∈ msgs, m.2.length < 2 ^ 64) :
    storeFile (start_saving_loop (fun _ => none) msgs) flow
      = encodeRecords (payloadsFor msgs flow) ∧
    decodeRecords (storeFile (start_saving_loop (fun _ => none) msgs) flow)
      = payloadsFor msgs flow := by
  have hfile : storeFile (start_saving_loop (fun _ => none) msgs) flow
      = encodeRecords (payloadsFor msgs flow) := by
    rw [start_saving_loop, savingLoop_no_fail msgs 0 (fun _ => [])]
    rfl
  refine ⟨hfile, ?_⟩
  rw [hfile, decodeRecords]
  apply decode_encode
  · intro p hq
    simp only [payloadsFor, List.mem_map] at hq
    obtain ⟨m, hm, rfl⟩ := hq
    exact h m (List.mem_of_mem_filter hm)
  · exact Nat.le_refl _

/-- Witness for claim C3 at a concrete two-message sequence on one
flow. -/
theorem C3_persistence_roundtrip_witness :
    storeFile (start_saving_loop (fun _ => none)
        [(⟨none, ⟨.v4 9, 9⟩, ⟨.v4 8, 8⟩, 17⟩, [7, 7]),
         (⟨none, ⟨.v4 9, 9⟩, ⟨.v4 8, 8⟩, 17⟩, [5])])
        ⟨none, ⟨.v4 9, 9⟩, ⟨.v4 8, 8⟩, 17⟩
      = encodeRecords (payloadsFor
        [(⟨none, ⟨.v4 9, 9⟩, ⟨.v4 8, 8⟩, 17⟩, [7, 7]),
         (⟨none, ⟨.v4 9, 9⟩, ⟨.v4 8, 8⟩, 17⟩, [5])]
        ⟨none, ⟨.v4 9, 9⟩, ⟨.v4 8, 8⟩, 17⟩) ∧
    decodeRecords (storeFile (start_saving_loop (fun _ => none)
        [(⟨none, ⟨.v4 9, 9⟩, ⟨.v4 8, 8⟩, 17⟩, [7, 7]),
         (⟨none, ⟨.v4 9, 9⟩, ⟨.v4 8, 8⟩, 17⟩, [5])])
        ⟨none, ⟨.v4 9, 9⟩, ⟨.v4 8, 8⟩, 17⟩)
      = payloadsFor
        [(⟨none, ⟨.v4 9, 9⟩, ⟨.v4 8, 8⟩, 17⟩, [7, 7]),
         (⟨none, ⟨.v4 9, 9⟩, ⟨.v4 8, 8⟩, 17⟩, [5])]
        ⟨none, ⟨.v4 9, 9⟩, ⟨.v4 8, 8⟩, 17⟩ :=
  C3_persistence_roundtrip
    [(⟨none, ⟨.v4 9, 9⟩, ⟨.v4 8, 8⟩, 17⟩, [7, 7]),
     (⟨none, ⟨.v4 9, 9⟩, ⟨.v4 8, 8⟩, 17⟩, [5])]
    ⟨none, ⟨.v4 9, 9⟩, ⟨.v4 8, 8⟩, 17⟩ (by decide)

/-- Claim C8, counterexample: when opening the first flow file fails,
the unwrap panics: the saving loop terminates at once with nothing
written, the failing message and the following one both left
unprocessed. The claim that the loop logs, drops the packet and
continues with subsequent pairs is false. -/
theorem C8_io_error_counterexample :
    start_saving_loop (fun i => if i = 0 then some IoFail.openFail else none)
        [(⟨none, ⟨.v4 1, 1⟩, ⟨.v4 0, 0⟩, 6⟩, [1]),
         (⟨none, ⟨.v4 2, 2⟩, ⟨.v4 0, 0⟩, 6⟩, [2])]
      = StoreOutcome.panicked (fun _ => [])
        [(⟨none, ⟨.v4 1, 1⟩, ⟨.v4 0, 0⟩, 6⟩, [1]),
         (⟨none, ⟨.v4 2, 2⟩, ⟨.v4 0, 0⟩, 6⟩, [2])] ∧
    storeFile (start_saving_loop
        (fun i => if i = 0 then some IoFail.openFail else none)
        [(⟨none, ⟨.v4 1, 1⟩, ⟨.v4 0, 0⟩, 6⟩, [1]),
         (⟨none, ⟨.v4 2, 2⟩, ⟨.v4 0, 0⟩, 6⟩, [2])])
      ⟨none, ⟨.v4 2, 2⟩, ⟨.v4 0, 0⟩, 6⟩ = [] :=
  ⟨rfl, rfl⟩

/-- Claim C8, amended: a failing open or write makes the unwrap panic
and terminates the saving loop at the current message: the current
packet and every later pair remain unprocessed (a failing payload write
leaves the 8-byte length prefix already appended to the flow file). -/
theorem C8_io_error_amended (fail : Nat → Option IoFail) (i : Nat)
    (fs : FileSystem) (f : Flow) (p : List Nat)
    (rest : List (Flow × List Nat)) (e : IoFail) (h : fail i = some e) :
    savingLoop fail i fs ((f, p) :: rest)
      = .panicked
        (match e with
          | .dataWriteFail =>
            fun g => if g = f then fs g ++ le64 p.length else fs g
          | _ => fs)
        ((f, p) :: rest) := by
  cases e <;> simp [savingLoop, h]

/-- Witness for claim C8 at a concrete failing open on the first
message. -/
theorem C8_io_error_amended_witness :
    savingLoop (fun _ => some IoFail.openFail) 0 (fun _ => [])
        [(⟨none, ⟨.v4 1, 1⟩, ⟨.v4 0, 0⟩, 6⟩, [1])]
      = StoreOutcome.panicked (fun _ => [])
        [(⟨none, ⟨.v4 1, 1⟩, ⟨.v4 0, 0⟩, 6⟩, [1])] :=
  C8_io_error_amended (fun _ => some IoFail.openFail) 0 (fun _ => [])
    ⟨none, ⟨.v4 1, 1⟩, ⟨.v4 0, 0⟩, 6⟩ [1] [] IoFail.openFail rfl

theorem parseVlansAux_bound (frame : List Nat) :
    ∀ (fuel off : Nat) (vs : List (Nat × Nat)),
      parseVlansAux frame fuel off = some vs →
      off + 4 * vs.length ≤ frame.length := by
  intro fuel
  induction fuel with
  | zero =>
    intro off vs h
    simp [parseVlansAux] at h
  | succ f ih =>
    intro off vs h
    simp only [parseVlansAux] at h
    split at h
    · split at h
      · split at h
        · rename_i hb he rest hrec
          injection h with h
          subst h
          have := ih (off + 4) rest hrec
          simp only [List.length_cons]
          omega
        · exact absurd h (by simp)
      · injection h with h
        subst h
        rename_i hb he
        simp only [List.length_cons, List.length_nil]
        omega
    · exact absurd h (by simp)

theorem ethParse_bound (frame : List Nat) (eth : EthernetS)
    (h : ethParse frame = some eth) : eth.headerLen ≤ frame.length := by
  unfold ethParse getData at h
  by_cases hc : (0 : Nat) + 14 ≤ frame.length
  · rw [if_pos hc] at h
    simp only [] at h
    by_cases hv :
        u16be (((frame.drop 0).take 14).getD 12 0)
          (((frame.drop 0).take 14).getD 13 0) = VLAN_802_1Q
    · rw [if_pos hv] at h
      cases hrec : parseVlansAux frame (frame.length + 1) 14 with
      | none =>
        rw [hrec] at h
        simp at h
      | some vlans =>
        rw [hrec] at h
        simp only [Option.some.injEq] at h
        have hb := parseVlansAux_bound frame (frame.length + 1) 14 vlans hrec
        rw [← h]
        simp only [EthernetS.headerLen]
        omega
    · rw [if_neg hv] at h
      simp only [Option.some.injEq] at h
      rw [← h]
      simp only [EthernetS.headerLen, List.length_nil]
      omega
  · rw [if_neg hc] at h
    simp at h

theorem ipv4Parse_bound (frame : List Nat) (eth : EthernetS) (ip4 : Ipv4S)
    (h : ipv4Parse frame eth = some ip4) :
    ip4.offset + 20 ≤ frame.length := by
  unfold ipv4Parse getData at h
  by_cases he : eth.nextHeader = 0x0800
  · rw [if_pos he] at h
    by_cases hc : eth.nextHeaderOffset + 20 ≤ frame.length
    · rw [if_pos hc] at h
      simp only [Option.some.injEq] at h
      rw [← h]
      exact hc
    · rw [if_neg hc] at h
      simp at h
  · rw [if_neg he] at h
    simp at h

theorem tcpParse_bound (frame : List Nat) (pr off : Nat) (tcp : TcpS)
    (h : tcpParse frame pr off = some tcp) :
    tcp.offset + 20 ≤ frame.length ∧ tcp.offset = off := by
  unfold tcpParse getData at h
  by_cases hp : pr = TCP_PROTOCOL
  · rw [if_pos hp] at h
    by_cases hc : off + 20 ≤ frame.length
    · rw [if_pos hc] at h
      simp only [Option.some.injEq] at h
      rw [← h]
      exact ⟨hc, rfl⟩
    · rw [if_neg hc] at h
      simp at h
  · rw [if_neg hp] at h
    simp at h

/-- A 54-byte frame: untagged Ethernet carrying IPv4 (IHL 5, protocol
TCP, declared total length 65535) and a 20-byte TCP header. The frame is
well-formed for every header read, but the IPv4 total-length field
overstates the actual frame size. -/
def c2Frame : List Nat :=
  [0, 0, 0, 0, 0, 0, 0, 0, 0, 0, 0, 0, 8, 0,
   69, 0, 255, 255, 0, 0, 0, 0, 64, 6, 0, 0, 10, 0, 0, 1, 10, 0, 0, 2,
   4, 87, 8, 174, 0, 0, 0, 0, 0, 0, 0, 0, 80, 0, 0, 0, 0, 0, 0, 0]

/-- The same frame with the IPv4 total-length field set to 0, so that
subtracting the L3 plus L4 header lengths underflows. -/
def c2uFrame : List Nat :=
  [0, 0, 0, 0, 0, 0, 0, 0, 0, 0, 0, 0, 8, 0,
   69, 0, 0, 0, 0, 0, 0, 0, 64, 6, 0, 0, 10, 0, 0, 1, 10, 0, 0, 2,
   4, 87, 8, 174, 0, 0, 0, 0, 0, 0, 0, 0, 80, 0, 0, 0, 0, 0, 0, 0]

/-- Claim C2, counterexample: on the 54-byte frame whose IPv4 total
length claims 65535 bytes, L4Context::new succeeds and returns a context
with offset 54 and payload length 65495, so offset + length = 65549
exceeds the frame length 54; the parser never compares the declared IP
length against the frame, refuting the bound in the claim. -/
theorem C2_parser_counterexample :
    L4Context.new c2Frame
      = .ok ⟨⟨.v4 167772161, 1111⟩, ⟨.v4 167772162, 2222⟩, 6, 54, 65495, none⟩ ∧
    c2Frame.length = 54 ∧ ¬(54 + 65495 ≤ 54) :=
  ⟨rfl, rfl, by omega⟩

/-- Claim C2, amended: the parser is total and never reads outside the
frame during parsing: every successful header parse lies within the
frame bounds (Ethernet header with its VLAN tags, the 20-byte IPv4
header read, the 20-byte TCP header read), and when the IP total length
minus the L3 plus L4 header lengths underflows, L4Context::new fails
with the Malformed error; but the payload length of a returned context
comes from the unvalidated IP length field, so offset + length is not
bounded by the frame length. -/
theorem C2_parser_amended (frame : List Nat) (eth : EthernetS) (ip4 : Ipv4S)
    (tcp : TcpS)
    (h1 : ethParse frame = some eth)
    (h2 : ipv4Parse frame eth = some ip4)
    (h3 : tcpParse frame ip4.protocol ip4.nextHeaderOffset = some tcp)
    (h4 : ip4.totalLength < ip4.headerLen + tcp.headerLen) :
    L4Context.new frame = .error .malformed ∧
    eth.headerLen ≤ frame.length ∧
    ip4.offset + 20 ≤ frame.length ∧
    tcp.offset + 20 ≤ frame.length := by
  refine ⟨?_, ethParse_bound frame eth h1, ipv4Parse_bound frame eth ip4 h2,
    (tcpParse_bound frame ip4.protocol ip4.nextHeaderOffset tcp h3).1⟩
  unfold L4Context.new
  simp only [h1, h2, h3]
  rw [if_neg (by omega : ¬(ip4.headerLen + tcp.headerLen ≤ ip4.totalLength))]

/-- Witness for the amended claim C2 at the concrete underflow frame:
total length 0 is smaller than the 40 bytes of IPv4 and TCP headers, and
the parser answers Malformed. -/
theorem C2_parser_amended_witness :
    L4Context.new c2uFrame = .error .malformed ∧
    14 ≤ c2uFrame.length ∧
    34 ≤ c2uFrame.length ∧
    54 ≤ c2uFrame.length :=
  C2_parser_amended c2uFrame
    ⟨[0, 0, 0, 0, 0, 0], [0, 0, 0, 0, 0, 0], 2048, []⟩
    ⟨14, 5, 0, 6, 167772161, 167772162⟩
    ⟨34, 1111, 2222, 5⟩
    rfl rfl rfl (by decide)

end Retina
